import Mathlib

/-!
Verification of the catalog persistence engine of
`src/cataloger_crew/src/cataloger_crew/tools/catalog_tools.py`.

The Python module works on JSON dictionaries.  We embed the catalog
document shallowly: Python `dict`s become association lists whose
update-or-append semantics mirror `d[k] = v`, floats become `ℚ`,
and the ambient effects (current time, `hash(url)`, `urlparse`,
`json.loads`, file I/O success) are threaded explicitly through a
`CreateEnv`/`DiskFile` parameter, since the claims quantify over them.
-/

/-- Association list standing for a Python `dict` (insertion ordered). -/
abbrev Assoc (α : Type) := List (String × α)

/-- `d.get(k)` / `d[k]`: first binding of `k`, if any. -/
def Assoc.lookup {α : Type} (m : Assoc α) (k : String) : Option α :=
  match m with
  | [] => none
  | (k', v) :: rest => if k' = k then some v else Assoc.lookup rest k

/-- `d[k] = v`: replace the binding of `k` in place, or append a new one. -/
def Assoc.insert {α : Type} (m : Assoc α) (k : String) (v : α) : Assoc α :=
  match m with
  | [] => [(k, v)]
  | (k', v') :: rest =>
      if k' = k then (k', v) :: rest else (k', v') :: Assoc.insert rest k v

/-- A catalog entry, as built by `create_catalog_entry` (lines 138-151).
Metadata values are modelled as strings (only string-valued keys are read). -/
structure Entry where
  id : String
  title : String
  url : String
  summary : String
  tags : List String
  metadata : Assoc String
  quality_score : ℚ
  created : String
  last_updated : String
  source_domain : String
  content_type : String
  technical_level : String
deriving DecidableEq, Repr

/-- The `statistics` sub-document of the catalog. -/
structure Stats where
  content_types : Assoc Nat
  sources : Assoc Nat
  quality_distribution : Assoc Nat
deriving DecidableEq, Repr

/-- The persisted catalog root document. -/
structure Catalog where
  meta_created : String
  meta_last_updated : String
  meta_version : String
  meta_total_entries : Nat
  entries : Assoc Entry
  categories : Assoc (List String)
  tags : Assoc (List String)
  statistics : Stats
deriving DecidableEq, Repr

/-- `CatalogManager._create_empty_catalog` (lines 37-54); `now` stands for
`datetime.now().isoformat()`. -/
def _create_empty_catalog (now : String) : Catalog :=
  { meta_created := now
    meta_last_updated := now
    meta_version := "1.0"
    meta_total_entries := 0
    entries := []
    categories := []
    tags := []
    statistics := ⟨[], [], []⟩ }

/-- State of the primary catalog file on disk.  `json.load(open(path))`
first decodes the bytes as UTF-8, then parses the text:
`absent` — no file; `undecodable` — the bytes are not valid UTF-8, so the
read raises `UnicodeDecodeError`; `corrupt` — valid UTF-8 that is not
valid JSON (for example a truncated write), so the parse raises
`json.JSONDecodeError`; `non_catalog` — parses as JSON but is not a
catalog-shaped document (the loader returns it unchecked and the caller's
subscript accesses raise later); `valid c` — a catalog document `c`. -/
inductive DiskFile where
  | absent
  | undecodable
  | corrupt
  | non_catalog
  | valid (c : Catalog)
deriving DecidableEq, Repr

/-- What one call to `CatalogManager.load_catalog` does: return a catalog
document, return a parsed non-catalog JSON value as-is, or let an uncaught
exception propagate to the caller. -/
inductive LoadResult where
  | ok (c : Catalog)
  | ok_non_catalog
  | raises
deriving DecidableEq, Repr

/-- `CatalogManager.load_catalog` (lines 26-35): a missing file, and a
present file whose parse raises `json.JSONDecodeError` (or whose read
raises `IOError`), fall back to `_create_empty_catalog`.  Only those two
exception classes are caught: a file whose bytes are not valid UTF-8
raises `UnicodeDecodeError` out of the method, and a valid-JSON document
that is not a catalog is returned without any shape check. -/
def load_catalog (d : DiskFile) (now : String) : LoadResult :=
  match d with
  | .absent => .ok (_create_empty_catalog now)
  | .corrupt => .ok (_create_empty_catalog now)
  | .undecodable => .raises
  | .non_catalog => .ok_non_catalog
  | .valid c => .ok c

/-- How an attempted save terminates.  `open(path, "w")` truncates the
primary file before `json.dump` streams into it, so an exception raised
before the `open` (metadata update, the `open` call itself) leaves the
previous file intact, while an exception raised during the dump leaves a
truncated file: a strict prefix of a JSON document, which is valid UTF-8
but no longer valid JSON. -/
inductive SaveOutcome where
  | ok
  | fail_before_write
  | fail_during_write
deriving DecidableEq, Repr

/-- `CatalogManager.save_catalog` (lines 56-73): refresh the metadata and
write the document; every raised exception is caught and reported as the
return value `false`.  On `fail_before_write` the primary file is
untouched; on `fail_during_write` it has been truncated and no longer
parses (`DiskFile.corrupt`). -/
def save_catalog (d : DiskFile) (c : Catalog) (now : String)
    (outcome : SaveOutcome) : DiskFile × Bool :=
  match outcome with
  | .ok =>
      (.valid { c with meta_last_updated := now,
                       meta_total_entries := c.entries.length },
       true)
  | .fail_before_write => (d, false)
  | .fail_during_write => (.corrupt, false)

/-- The ambient effects of one `create_catalog_entry` call: the wall clock,
`hash(url)` (Python string hashing is process-seeded, hence arbitrary),
`urlparse(url).netloc`, the result of `json.loads(metadata)` (`none` when
it raises `JSONDecodeError`), and how the save terminates. -/
structure CreateEnv where
  now : String
  url_hash : Int
  domain : String
  json_meta : Option (Assoc String)
  save_outcome : SaveOutcome
deriving DecidableEq, Repr

/-- Python `s.split(",")`, on the character list so that it computes by
structural recursion: cut at every comma. -/
def split_comma : List Char → List (List Char)
  | [] => [[]]
  | c :: rest =>
      if c = ',' then [] :: split_comma rest
      else
        match split_comma rest with
        | [] => [[c]]
        | t :: ts => (c :: t) :: ts

/-- Python `s.strip()`: drop leading and trailing whitespace. -/
def trimChars (l : List Char) : List Char :=
  ((l.dropWhile Char.isWhitespace).reverse.dropWhile Char.isWhitespace).reverse

/-- Tag parsing (line 121): split on commas, strip, drop empties. -/
def parse_tags (tags : String) : List String :=
  ((split_comma tags.data).map (fun l => String.mk (trimChars l))).filter
    (fun t => t ≠ "")

/-- Metadata parsing (lines 124-127): the empty string short-circuits to an
empty dict; otherwise a JSON parse failure wraps the raw string. -/
def parse_metadata (metadata : String) (json_meta : Option (Assoc String)) :
    Assoc String :=
  if metadata = "" then []
  else
    match json_meta with
    | some m => m
    | none => [("raw_metadata", metadata)]

/-- Entry id generation (line 130): timestamp plus `hash(url) % 10000`. -/
def make_entry_id (env : CreateEnv) : String :=
  "entry_" ++ env.now ++ "_" ++ toString (env.url_hash % 10000)

/-- First entry whose `url` equals the candidate (duplicate scan,
lines 133-135). -/
def find_dup (entries : Assoc Entry) (url : String) : Option String :=
  match entries with
  | [] => none
  | (eid, e) :: rest => if e.url = url then some eid else find_dup rest url

/-- The entry record built at lines 138-151. -/
def build_entry (title url summary tags metadata : String) (q : ℚ)
    (env : CreateEnv) : Entry :=
  let tag_list := parse_tags tags
  let meta := parse_metadata metadata env.json_meta
  { id := make_entry_id env
    title := title
    url := url
    summary := summary
    tags := tag_list
    metadata := meta
    quality_score := q
    created := env.now
    last_updated := env.now
    source_domain := env.domain
    content_type := (meta.lookup "content_type").getD "unknown"
    technical_level := (meta.lookup "technical_level").getD "unknown" }

/-- `_get_quality_range` (lines 248-257). -/
def _get_quality_range (score : ℚ) : String :=
  if score ≥ 8 then "excellent"
  else if score ≥ 6 then "good"
  else if score ≥ 4 then "fair"
  else "poor"

/-- `if k not in m: m[k] = 0` followed by `m[k] += 1`. -/
def bump (m : Assoc Nat) (k : String) : Assoc Nat :=
  match m.lookup k with
  | some n => m.insert k (n + 1)
  | none => m.insert k 1

/-- `if k not in m: m[k] = []` followed by `m[k].append(id)`. -/
def append_index (m : Assoc (List String)) (k id : String) :
    Assoc (List String) :=
  match m.lookup k with
  | some l => m.insert k (l ++ [id])
  | none => m.insert k [id]

/-- The tag-index loop of `_update_catalog_indices` (lines 193-197). -/
def update_tag_index (m : Assoc (List String)) (entryTags : List String)
    (id : String) : Assoc (List String) :=
  entryTags.foldl (fun m tag => append_index m tag id) m

/-- `_update_catalog_indices` (lines 191-223). -/
def _update_catalog_indices (c : Catalog) (e : Entry) : Catalog :=
  let tags' := update_tag_index c.tags e.tags e.id
  let categories' := append_index c.categories e.content_type e.id
  let s := c.statistics
  let s' : Stats :=
    { content_types := bump s.content_types e.content_type
      sources := bump s.sources e.source_domain
      quality_distribution :=
        bump s.quality_distribution (_get_quality_range e.quality_score) }
  { c with tags := tags', categories := categories', statistics := s' }

/-- Outcome of `create_catalog_entry`, abstracting its report strings:
the duplicate abort names the existing id, the success report names the
new id, a failed save yields the failure string, and any other exception
(an uncaught `UnicodeDecodeError` from the load, a subscript error on a
non-catalog document) is caught by the tool's outer `except Exception`
and reported as an error string (lines 135, 161-179). -/
inductive CreateResult where
  | duplicate (existing_id : String)
  | created (entry_id : String)
  | save_failed
  | error_caught
deriving DecidableEq, Repr

/-- `create_catalog_entry` (lines 93-179): load, duplicate-guard, build,
insert, index, save.  Returns the resulting disk state and the outcome.
When the load raises, or returns a non-catalog document whose subscripts
then raise, the outer `except Exception` turns the exception into an
error report and nothing is written. -/
def create_catalog_entry (d : DiskFile) (title url summary tags metadata : String)
    (q : ℚ) (env : CreateEnv) : DiskFile × CreateResult :=
  match load_catalog d env.now with
  | .raises => (d, .error_caught)
  | .ok_non_catalog => (d, .error_caught)
  | .ok catalog =>
      match find_dup catalog.entries url with
      | some existing_id => (d, .duplicate existing_id)
      | none =>
          let entry := build_entry title url summary tags metadata q env
          let catalog := { catalog with entries := catalog.entries.insert entry.id entry }
          let catalog := _update_catalog_indices catalog entry
          let res := save_catalog d catalog env.now env.save_outcome
          if res.2 then (res.1, .created entry.id) else (res.1, .save_failed)

/-- Substring test standing for Python's `pat in s`. -/
def strContains (s pat : String) : Bool :=
  decide (List.IsInfix pat.data s.data)

/-- `_get_entry_categories` (lines 226-245): content type, optional
technical level, then exactly one domain-based category from the
`.edu`/`.ac.` / `.gov` / `.org` / else chain. -/
def _get_entry_categories (e : Entry) : List String :=
  [e.content_type]
  ++ (if e.technical_level ≠ "unknown" then ["level_" ++ e.technical_level] else [])
  ++ [if strContains e.source_domain ".edu" || strContains e.source_domain ".ac." then
        "academic"
      else if strContains e.source_domain ".gov" then "government"
      else if strContains e.source_domain ".org" then "organization"
      else "commercial"]

/-- Modelled from the spec (§4.5, amended): the domain class of a source
domain — `.edu`/`.ac.` → academic, else `.gov` → government, else `.org`
→ organization, else commercial.  Used to compare the exporter's derived
categories against the specified classification rule. -/
def spec_domain_class (domain : String) : String :=
  if strContains domain ".edu" || strContains domain ".ac." then "academic"
  else if strContains domain ".gov" then "government"
  else if strContains domain ".org" then "organization"
  else "commercial"

/-- Python `s.split()`: tokens separated by whitespace runs, no empty
tokens; `acc` holds the characters of the current token, reversed. -/
def tokenizeAux : List Char → List Char → List (List Char)
  | acc, [] => if acc = [] then [] else [acc.reverse]
  | acc, c :: rest =>
      if c.isWhitespace then
        if acc = [] then tokenizeAux [] rest
        else acc.reverse :: tokenizeAux [] rest
      else tokenizeAux (c :: acc) rest

/-- Lower-cased whitespace-tokenized word set of a text (`set(t.lower().split())`),
represented as a duplicate-free list. -/
def words (t : String) : List String :=
  ((tokenizeAux [] (t.data.map Char.toLower)).map (fun l => String.mk l)).dedup

/-- `_calculate_text_similarity` (lines 343-357): Jaccard index of the two
word sets, `0.0` when either text or word set is empty. -/
def _calculate_text_similarity (t1 t2 : String) : ℚ :=
  if t1 = "" ∨ t2 = "" then 0
  else
    let w1 := words t1
    let w2 := words t2
    if w1 = [] ∨ w2 = [] then 0
    else ((w1.filter (fun w => w ∈ w2)).length : ℚ) / ((w1 ++ w2).dedup.length : ℚ)

/-- The per-entry similarity score of `detect_duplicates` (lines 278-298):
+100 for an exact URL match, +50 when both titles are non-empty and their
similarity exceeds 0.8, +30 when both summaries are non-empty and their
similarity exceeds 0.7. -/
def similarity_score (e : Entry) (url title summary : String) : Nat :=
  (if e.url = url then 100 else 0)
  + (if title ≠ "" ∧ e.title ≠ "" ∧ _calculate_text_similarity title e.title > 0.8
     then 50 else 0)
  + (if summary ≠ "" ∧ e.summary ≠ "" ∧
        _calculate_text_similarity summary e.summary > 0.7
     then 30 else 0)

/-- `detect_duplicates` (lines 260-340), abstracted to the list of flagged
entries it reports: every stored entry whose similarity score reaches the
threshold 60, with its score, in catalog iteration order.  `none` stands
for the try/except error report produced when the load raises or returns
a non-catalog document. -/
def detect_duplicates (d : DiskFile) (now url title summary : String) :
    Option (List (String × Nat)) :=
  match load_catalog d now with
  | .ok catalog =>
      some (catalog.entries.filterMap fun p =>
        let s := similarity_score p.2 url title summary
        if s ≥ 60 then some (p.1, s) else none)
  | _ => none

/-- The entry-filtering step of `export_catalog` (lines 377-382): with a
non-empty `filter_category`, keep exactly the entries whose derived
category set contains it.  The format-specific file writing is not
modelled; the claims concern which entries are exported.  `none` stands
for the try/except error report when the load raises or returns a
non-catalog document. -/
def export_catalog (d : DiskFile) (now filter_category : String) :
    Option (Assoc Entry) :=
  match load_catalog d now with
  | .ok catalog =>
      some (if filter_category = "" then catalog.entries
            else catalog.entries.filter fun p =>
              filter_category ∈ _get_entry_categories p.2)
  | _ => none

/-- The entries of the loaded catalog, `[]` when the load does not return
a catalog document; used to phrase freshness side conditions executably. -/
def loaded_entries (d : DiskFile) (now : String) : Assoc Entry :=
  match load_catalog d now with
  | .ok c => c.entries
  | _ => []

/-- Sum of the counters of a statistics dict. -/
def sum_values (m : Assoc Nat) : Nat :=
  (m.map (fun p => p.2)).sum

/-- `true` exactly on the successful-insertion outcome. -/
def CreateResult.isCreated : CreateResult → Bool
  | .created _ => true
  | _ => false

/-- Disk states reachable from a missing catalog file through the core's
only mutating operation, `create_catalog_entry`, paired with the number of
successful insertions performed along the way.  The environment of each
call (timestamps, url hashes, save outcome) is arbitrary. -/
inductive Reach : DiskFile → Nat → Prop where
  | init : Reach .absent 0
  | step (d : DiskFile) (n : Nat) (title url summary tags metadata : String)
      (q : ℚ) (env : CreateEnv) (h : Reach d n) :
      Reach (create_catalog_entry d title url summary tags metadata q env).1
        (n + (if ((create_catalog_entry d title url summary tags metadata q env).2).isCreated
              then 1 else 0))

/-- Reachability restricted to calls whose generated entry id is fresh,
i.e. not already a key of the loaded catalog (ruling out the timestamp +
hash-bucket id collision noted in the design). -/
inductive ReachFresh : DiskFile → Prop where
  | init : ReachFresh .absent
  | step (d : DiskFile) (title url summary tags metadata : String)
      (q : ℚ) (env : CreateEnv) (h : ReachFresh d)
      (hfresh : (loaded_entries d env.now).lookup (make_entry_id env) = none) :
      ReachFresh (create_catalog_entry d title url summary tags metadata q env).1

/-- Reachability restricted to runs in which no save fails during the
file write: every failed save aborts before the primary file is
truncated. -/
inductive ReachAtomicSave : DiskFile → Nat → Prop where
  | init : ReachAtomicSave .absent 0
  | step (d : DiskFile) (n : Nat) (title url summary tags metadata : String)
      (q : ℚ) (env : CreateEnv) (h : ReachAtomicSave d n)
      (hsave : env.save_outcome ≠ SaveOutcome.fail_during_write) :
      ReachAtomicSave (create_catalog_entry d title url summary tags metadata q env).1
        (n + (if ((create_catalog_entry d title url summary tags metadata q env).2).isCreated
              then 1 else 0))

/-- Both directions of tag-index consistency: every entry's id is indexed
under each of its tags, and every indexed id belongs to an entry carrying
that tag. -/
def TagConsistent (c : Catalog) : Prop :=
  (∀ eid e, c.entries.lookup eid = some e →
      ∀ t ∈ e.tags, e.id ∈ (c.tags.lookup t).getD [])
  ∧ (∀ t id, id ∈ (c.tags.lookup t).getD [] →
      ∃ e, c.entries.lookup id = some e ∧ t ∈ e.tags)

/-! ### Association-list laws -/

theorem Assoc.lookup_insert {α : Type} (m : Assoc α) (k k' : String) (v : α) :
    (m.insert k v).lookup k' = if k' = k then some v else m.lookup k' := by
  induction m with
  | nil => simp [Assoc.insert, Assoc.lookup, eq_comm]
  | cons p rest ih =>
      obtain ⟨a, b⟩ := p
      simp only [Assoc.insert]
      by_cases hak : a = k
      · subst hak
        simp only [if_pos rfl, Assoc.lookup]
        by_cases hk : k' = a
        · subst hk; simp
        · have ha : a ≠ k' := fun h => hk h.symm
          simp [ha, hk]
      · simp only [if_neg hak, Assoc.lookup, ih]
        by_cases hk2 : a = k'
        · by_cases hk : k' = k
          · exact absurd (hk2.trans hk) hak
          · simp [hk2, hk]
        · by_cases hk : k' = k
          · subst hk; simp [hk2]
          · simp [hk2, hk]

theorem Assoc.insert_of_lookup_none {α : Type} (m : Assoc α) (k : String) (v : α)
    (h : m.lookup k = none) : m.insert k v = m ++ [(k, v)] := by
  induction m with
  | nil => simp [Assoc.insert]
  | cons p rest ih =>
      obtain ⟨a, b⟩ := p
      by_cases hak : a = k
      · simp [Assoc.lookup, hak] at h
      · simp [Assoc.lookup, hak] at h
        simp [Assoc.insert, hak, ih h]

theorem Assoc.lookup_none_iff {α : Type} (m : Assoc α) (k : String) :
    m.lookup k = none ↔ ∀ p ∈ m, p.1 ≠ k := by
  induction m with
  | nil => simp [Assoc.lookup]
  | cons p rest ih =>
      obtain ⟨a, b⟩ := p
      by_cases hak : a = k <;> simp [Assoc.lookup, hak, ih]

/-! ### Counter and index laws -/

theorem lookup_bump (m : Assoc Nat) (k k' : String) :
    ((bump m k).lookup k').getD 0 =
      (m.lookup k').getD 0 + (if k' = k then 1 else 0) := by
  unfold bump
  cases h : m.lookup k with
  | some n =>
      rw [Assoc.lookup_insert]
      by_cases hk : k' = k <;> simp [hk, h]
  | none =>
      rw [Assoc.lookup_insert]
      by_cases hk : k' = k <;> simp [hk, h]

theorem sum_values_insert_some (m : Assoc Nat) (k : String) (n : Nat)
    (h : m.lookup k = some n) :
    sum_values (m.insert k (n + 1)) = sum_values m + 1 := by
  induction m with
  | nil => simp [Assoc.lookup] at h
  | cons p rest ih =>
      obtain ⟨a, b⟩ := p
      by_cases hak : a = k
      · simp [Assoc.lookup, hak] at h
        subst h
        simp [Assoc.insert, hak, sum_values]
        ring
      · simp [Assoc.lookup, hak] at h
        simp [Assoc.insert, hak, sum_values] at ih ⊢
        rw [ih h]
        ring

theorem sum_values_bump (m : Assoc Nat) (k : String) :
    sum_values (bump m k) = sum_values m + 1 := by
  unfold bump
  cases h : m.lookup k with
  | some n => exact sum_values_insert_some m k n h
  | none =>
      rw [Assoc.insert_of_lookup_none m k 1 h]
      simp [sum_values]

theorem lookup_append_index (m : Assoc (List String)) (k id t : String) :
    ((append_index m k id).lookup t).getD [] =
      if t = k then ((m.lookup t).getD []) ++ [id] else (m.lookup t).getD [] := by
  unfold append_index
  cases h : m.lookup k with
  | some l =>
      rw [Assoc.lookup_insert]
      by_cases ht : t = k
      · subst ht; simp [h]
      · simp [ht]
  | none =>
      rw [Assoc.lookup_insert]
      by_cases ht : t = k
      · subst ht; simp [h]
      · simp [ht]

theorem update_tag_index_cons (m : Assoc (List String)) (hd : String)
    (tl : List String) (id : String) :
    update_tag_index m (hd :: tl) id =
      update_tag_index (append_index m hd id) tl id := by
  simp [update_tag_index, List.foldl]

theorem mem_update_tag_index (l : List String) (m : Assoc (List String))
    (id t x : String) :
    x ∈ ((update_tag_index m l id).lookup t).getD [] ↔
      x ∈ ((m.lookup t).getD []) ∨ (x = id ∧ t ∈ l) := by
  induction l generalizing m with
  | nil => simp [update_tag_index]
  | cons hd tl ih =>
      rw [update_tag_index_cons, ih, lookup_append_index]
      by_cases ht : t = hd
      · subst ht
        rw [if_pos rfl]
        simp only [List.mem_append, List.mem_singleton, List.mem_cons]
        tauto
      · simp only [if_neg ht, List.mem_cons]
        tauto

/-! ### Duplicate-scan lemma -/

theorem find_dup_spec (entries : Assoc Entry) (url : String)
    (h : ∃ p ∈ entries, p.2.url = url) :
    ∃ eid e, find_dup entries url = some eid ∧ (eid, e) ∈ entries ∧ e.url = url := by
  induction entries with
  | nil => simp at h
  | cons p rest ih =>
      obtain ⟨a, e⟩ := p
      by_cases he : e.url = url
      · exact ⟨a, e, by simp [find_dup, he], by simp, he⟩
      · obtain ⟨p', hp', hurl⟩ := h
        rcases List.mem_cons.mp hp' with rfl | hmem
        · exact absurd hurl he
        · obtain ⟨eid, e', hfd, hm, hu⟩ := ih ⟨p', hmem, hurl⟩
          exact ⟨eid, e', by simp [find_dup, he, hfd], List.mem_cons_of_mem _ hm, hu⟩

/-! ### Operation-level equations -/

/-- The catalog document produced by a successful `create_catalog_entry`
run over the loaded catalog `c0`: the new entry inserted, indices and
statistics updated, and the save-time metadata refresh applied. -/
def created_catalog (c0 : Catalog) (title url summary tags metadata : String)
    (q : ℚ) (env : CreateEnv) : Catalog :=
  let e := build_entry title url summary tags metadata q env
  let c1 := _update_catalog_indices { c0 with entries := c0.entries.insert e.id e } e
  { c1 with meta_last_updated := env.now, meta_total_entries := c1.entries.length }

theorem create_error_raises_eq (d : DiskFile)
    (title url summary tags metadata : String) (q : ℚ) (env : CreateEnv)
    (hload : load_catalog d env.now = LoadResult.raises) :
    create_catalog_entry d title url summary tags metadata q env
      = (d, CreateResult.error_caught) := by
  simp only [create_catalog_entry, hload]

theorem create_error_non_catalog_eq (d : DiskFile)
    (title url summary tags metadata : String) (q : ℚ) (env : CreateEnv)
    (hload : load_catalog d env.now = LoadResult.ok_non_catalog) :
    create_catalog_entry d title url summary tags metadata q env
      = (d, CreateResult.error_caught) := by
  simp only [create_catalog_entry, hload]

theorem create_dup_eq (d : DiskFile)
    (title url summary tags metadata : String) (q : ℚ) (env : CreateEnv)
    (c0 : Catalog) (eid : String)
    (hload : load_catalog d env.now = LoadResult.ok c0)
    (hdup : find_dup c0.entries url = some eid) :
    create_catalog_entry d title url summary tags metadata q env
      = (d, CreateResult.duplicate eid) := by
  simp only [create_catalog_entry, hload, hdup]

theorem create_fail_before_eq (d : DiskFile)
    (title url summary tags metadata : String) (q : ℚ) (env : CreateEnv)
    (c0 : Catalog)
    (hload : load_catalog d env.now = LoadResult.ok c0)
    (hdup : find_dup c0.entries url = none)
    (henv : env.save_outcome = SaveOutcome.fail_before_write) :
    create_catalog_entry d title url summary tags metadata q env
      = (d, CreateResult.save_failed) := by
  simp only [create_catalog_entry, hload, hdup]
  simp [save_catalog, henv]

theorem create_fail_during_eq (d : DiskFile)
    (title url summary tags metadata : String) (q : ℚ) (env : CreateEnv)
    (c0 : Catalog)
    (hload : load_catalog d env.now = LoadResult.ok c0)
    (hdup : find_dup c0.entries url = none)
    (henv : env.save_outcome = SaveOutcome.fail_during_write) :
    create_catalog_entry d title url summary tags metadata q env
      = (DiskFile.corrupt, CreateResult.save_failed) := by
  simp only [create_catalog_entry, hload, hdup]
  simp [save_catalog, henv]

theorem create_success_eq (d : DiskFile)
    (title url summary tags metadata : String) (q : ℚ) (env : CreateEnv)
    (c0 : Catalog)
    (hload : load_catalog d env.now = LoadResult.ok c0)
    (hdup : find_dup c0.entries url = none)
    (henv : env.save_outcome = SaveOutcome.ok) :
    create_catalog_entry d title url summary tags metadata q env
      = (DiskFile.valid (created_catalog c0 title url summary tags metadata q env),
         CreateResult.created (make_entry_id env)) := by
  simp only [create_catalog_entry, created_catalog, hload, hdup]
  simp [save_catalog, henv]
  rfl

theorem created_catalog_stats (c0 : Catalog)
    (title url summary tags metadata : String) (q : ℚ) (env : CreateEnv) :
    (created_catalog c0 title url summary tags metadata q env).statistics.quality_distribution
      = bump c0.statistics.quality_distribution (_get_quality_range q) :=
  rfl

theorem created_catalog_entries (c0 : Catalog)
    (title url summary tags metadata : String) (q : ℚ) (env : CreateEnv) :
    (created_catalog c0 title url summary tags metadata q env).entries
      = c0.entries.insert (build_entry title url summary tags metadata q env).id
          (build_entry title url summary tags metadata q env) :=
  rfl

theorem created_catalog_tags (c0 : Catalog)
    (title url summary tags metadata : String) (q : ℚ) (env : CreateEnv) :
    (created_catalog c0 title url summary tags metadata q env).tags
      = update_tag_index c0.tags
          (build_entry title url summary tags metadata q env).tags
          (build_entry title url summary tags metadata q env).id :=
  rfl

/-- C7 counterexample: a present catalog file whose bytes are not valid
UTF-8 fails to parse, yet `load_catalog` raises `UnicodeDecodeError`
instead of returning the empty catalog: the method catches only
`json.JSONDecodeError` and `IOError`. -/
theorem undecodable_file_load_raises :
    load_catalog DiskFile.undecodable "T0" = LoadResult.raises
    ∧ ∀ c : Catalog, load_catalog DiskFile.undecodable "T0" ≠ LoadResult.ok c := by
  refine ⟨rfl, ?_⟩
  intro c h
  exact LoadResult.noConfusion h

/-- C7 (amended): when the catalog file is absent, or is present but its
parse raises `json.JSONDecodeError` (the only parse failure caught, e.g.
an invalid-JSON or truncated file) or its read raises `IOError`,
`load_catalog` returns a freshly constructed empty catalog — current
timestamps in the info block, empty entries, indices and statistics —
rather than an error; a file whose bytes are not valid UTF-8 instead
raises `UnicodeDecodeError` out of the method. -/
theorem load_silently_recovers_empty (d : DiskFile) (now : String)
    (h : d = DiskFile.absent ∨ d = DiskFile.corrupt) :
    load_catalog d now = LoadResult.ok (_create_empty_catalog now)
    ∧ (_create_empty_catalog now).entries = []
    ∧ (_create_empty_catalog now).tags = []
    ∧ (_create_empty_catalog now).categories = []
    ∧ (_create_empty_catalog now).statistics = ⟨[], [], []⟩
    ∧ (_create_empty_catalog now).meta_created = now
    ∧ (_create_empty_catalog now).meta_last_updated = now
    ∧ (_create_empty_catalog now).meta_total_entries = 0
    ∧ load_catalog DiskFile.undecodable now = LoadResult.raises := by
  rcases h with h | h <;> subst h <;>
    exact ⟨rfl, rfl, rfl, rfl, rfl, rfl, rfl, rfl, rfl⟩

/-- C7 (amended) witness: a concrete invalid-JSON file loads as the
empty catalog. -/
theorem load_silently_recovers_empty_witness :
    load_catalog DiskFile.corrupt "T0" = LoadResult.ok (_create_empty_catalog "T0") :=
  (load_silently_recovers_empty DiskFile.corrupt "T0" (Or.inr rfl)).1

/-- C4: `_get_quality_range` buckets any numeric score, in or out of the
0-10 range, by the thresholds 8/6/4, and `_update_catalog_indices`
increments exactly that bucket's counter by one, leaving every other
bucket's count unchanged. -/
theorem quality_bucket_thresholds_and_increment (q : ℚ) (c : Catalog)
    (e : Entry) (k : String) :
    (8 ≤ q → _get_quality_range q = "excellent")
    ∧ (6 ≤ q → q < 8 → _get_quality_range q = "good")
    ∧ (4 ≤ q → q < 6 → _get_quality_range q = "fair")
    ∧ (q < 4 → _get_quality_range q = "poor")
    ∧ (((_update_catalog_indices c e).statistics.quality_distribution.lookup k).getD 0 =
        (c.statistics.quality_distribution.lookup k).getD 0 +
          (if k = _get_quality_range e.quality_score then 1 else 0)) := by
  refine ⟨?_, ?_, ?_, ?_, ?_⟩
  · intro h; simp [_get_quality_range, h]
  · intro h₁ h₂
    simp only [_get_quality_range]
    rw [if_neg (by linarith), if_pos h₁]
  · intro h₁ h₂
    simp only [_get_quality_range]
    rw [if_neg (by linarith), if_neg (by linarith), if_pos h₁]
  · intro h₁
    simp only [_get_quality_range]
    rw [if_neg (by linarith), if_neg (by linarith), if_neg (by linarith)]
  · exact lookup_bump c.statistics.quality_distribution
      (_get_quality_range e.quality_score) k

/-- C4 witness: out-of-range scores 12 and -3 land in "excellent" and
"poor", and a concrete insertion bumps the matching bucket from 0 to 1. -/
theorem quality_bucket_witness :
    _get_quality_range 12 = "excellent"
    ∧ _get_quality_range (-3) = "poor"
    ∧ ((_update_catalog_indices (_create_empty_catalog "t0")
          ⟨"e1", "T", "u", "S", [], [], 5, "t", "t", "d", "unknown", "unknown"⟩
        ).statistics.quality_distribution.lookup "fair").getD 0 = 1 := by
  refine ⟨?_, ?_, ?_⟩
  · exact (quality_bucket_thresholds_and_increment 12 (_create_empty_catalog "t0")
      ⟨"e1", "T", "u", "S", [], [], 5, "t", "t", "d", "unknown", "unknown"⟩ "fair").1
      (by norm_num)
  · exact (quality_bucket_thresholds_and_increment (-3) (_create_empty_catalog "t0")
      ⟨"e1", "T", "u", "S", [], [], 5, "t", "t", "d", "unknown", "unknown"⟩ "fair").2.2.2.1
      (by norm_num)
  · have h := (quality_bucket_thresholds_and_increment 5 (_create_empty_catalog "t0")
      ⟨"e1", "T", "u", "S", [], [], 5, "t", "t", "d", "unknown", "unknown"⟩ "fair").2.2.2.2
    rw [h]
    norm_num [_get_quality_range, Assoc.lookup, _create_empty_catalog]

/-- C8 counterexample: a save that fails while `json.dump` streams into
the already-truncated primary file leaves a corrupt file in place of the
previously persisted catalog — the persisted catalog is not left
unchanged. -/
theorem mid_write_save_failure_corrupts :
    save_catalog (DiskFile.valid (_create_empty_catalog "t0"))
        (_create_empty_catalog "t1") "t1" SaveOutcome.fail_during_write
      = (DiskFile.corrupt, false)
    ∧ DiskFile.corrupt ≠ DiskFile.valid (_create_empty_catalog "t0") := by
  refine ⟨rfl, ?_⟩
  intro h
  exact DiskFile.noConfusion h

/-- C8 (amended): every save failure is reported as the return value
`false` rather than an exception; a failure raised before the file write
leaves the persisted catalog unchanged, and a failed save inside entry
creation reports the failure with the in-memory insertion not persisted —
but a failure raised during the write truncates the primary file, so the
persisted catalog is then destroyed (left corrupt) rather than
unchanged. -/
theorem save_failure_reported_not_raised (d : DiskFile) (c c0 : Catalog)
    (now title url summary tags metadata : String) (q : ℚ) (env : CreateEnv)
    (hload : load_catalog d env.now = LoadResult.ok c0)
    (hdup : find_dup c0.entries url = none) :
    (∀ outcome, outcome ≠ SaveOutcome.ok → (save_catalog d c now outcome).2 = false)
    ∧ save_catalog d c now SaveOutcome.fail_before_write = (d, false)
    ∧ save_catalog d c now SaveOutcome.fail_during_write = (DiskFile.corrupt, false)
    ∧ (env.save_outcome = SaveOutcome.fail_before_write →
        create_catalog_entry d title url summary tags metadata q env
          = (d, CreateResult.save_failed))
    ∧ (env.save_outcome = SaveOutcome.fail_during_write →
        create_catalog_entry d title url summary tags metadata q env
          = (DiskFile.corrupt, CreateResult.save_failed)) := by
  refine ⟨?_, rfl, rfl, ?_, ?_⟩
  · intro outcome houtcome
    cases outcome with
    | ok => exact absurd rfl houtcome
    | fail_before_write => rfl
    | fail_during_write => rfl
  · intro henv
    exact create_fail_before_eq d title url summary tags metadata q env c0 hload hdup henv
  · intro henv
    exact create_fail_during_eq d title url summary tags metadata q env c0 hload hdup henv

/-- C8 (amended) witness: a concrete create whose save fails before the
write leaves the disk untouched; one whose save fails during the write
leaves a corrupt file; both report the save failure as a value. -/
theorem save_failure_witness :
    save_catalog DiskFile.absent (_create_empty_catalog "t0") "t1"
        SaveOutcome.fail_before_write = (DiskFile.absent, false)
    ∧ create_catalog_entry DiskFile.absent "A" "u1" "S" "a" "" 5
        ⟨"t1", 0, "d1", none, SaveOutcome.fail_before_write⟩
        = (DiskFile.absent, CreateResult.save_failed)
    ∧ create_catalog_entry DiskFile.absent "A" "u1" "S" "a" "" 5
        ⟨"t1", 0, "d1", none, SaveOutcome.fail_during_write⟩
        = (DiskFile.corrupt, CreateResult.save_failed) := by
  have h1 := save_failure_reported_not_raised DiskFile.absent
    (_create_empty_catalog "t0") (_create_empty_catalog "t1") "t1" "A" "u1" "S"
    "a" "" 5 ⟨"t1", 0, "d1", none, SaveOutcome.fail_before_write⟩ rfl rfl
  have h2 := save_failure_reported_not_raised DiskFile.absent
    (_create_empty_catalog "t0") (_create_empty_catalog "t1") "t1" "A" "u1" "S"
    "a" "" 5 ⟨"t1", 0, "d1", none, SaveOutcome.fail_during_write⟩ rfl rfl
  exact ⟨h1.2.1, h1.2.2.2.1 rfl, h2.2.2.2.2 rfl⟩

/-- C1: if the loaded catalog already stores an entry with the candidate
URL, the create operation aborts with a duplicate report naming an
existing entry that holds that URL, and the disk state is unchanged — so
the entries mapping is not extended, any later load sees the identical
state, and the number of entries does not increase. -/
theorem duplicate_url_aborts_creation (d : DiskFile)
    (title url summary tags metadata : String) (q : ℚ) (env : CreateEnv)
    (c0 : Catalog) (hload : load_catalog d env.now = LoadResult.ok c0)
    (h : ∃ p ∈ c0.entries, p.2.url = url) :
    (∃ eid, (create_catalog_entry d title url summary tags metadata q env).2
        = CreateResult.duplicate eid
      ∧ ∃ e, (eid, e) ∈ c0.entries ∧ e.url = url)
    ∧ (create_catalog_entry d title url summary tags metadata q env).1 = d
    ∧ ∀ now, load_catalog
          (create_catalog_entry d title url summary tags metadata q env).1 now
        = load_catalog d now := by
  obtain ⟨eid, e, hfd, hm, hu⟩ := find_dup_spec _ url h
  have heq := create_dup_eq d title url summary tags metadata q env c0 eid hload hfd
  refine ⟨⟨eid, ?_, e, hm, hu⟩, ?_, ?_⟩
  · rw [heq]
  · rw [heq]
  · intro now
    rw [heq]

/-- C1 witness: re-creating an entry under an already-stored URL reports
the stored id and leaves the one-entry catalog with one entry. -/
theorem duplicate_url_witness :
    (∃ eid, (create_catalog_entry
        (create_catalog_entry DiskFile.absent "A" "u1" "S" "a" "" 5
          ⟨"t1", 0, "d1", none, SaveOutcome.ok⟩).1
        "B" "u1" "S2" "b" "" 7 ⟨"t2", 3, "d1", none, SaveOutcome.ok⟩).2
          = CreateResult.duplicate eid)
    ∧ (create_catalog_entry
        (create_catalog_entry DiskFile.absent "A" "u1" "S" "a" "" 5
          ⟨"t1", 0, "d1", none, SaveOutcome.ok⟩).1
        "B" "u1" "S2" "b" "" 7 ⟨"t2", 3, "d1", none, SaveOutcome.ok⟩).1
      = (create_catalog_entry DiskFile.absent "A" "u1" "S" "a" "" 5
          ⟨"t1", 0, "d1", none, SaveOutcome.ok⟩).1 := by
  have h := duplicate_url_aborts_creation
    (create_catalog_entry DiskFile.absent "A" "u1" "S" "a" "" 5
      ⟨"t1", 0, "d1", none, SaveOutcome.ok⟩).1
    "B" "u1" "S2" "b" "" 7 ⟨"t2", 3, "d1", none, SaveOutcome.ok⟩ _ rfl
    (by decide)
  obtain ⟨⟨eid, hres, _⟩, hdisk, _⟩ := h
  exact ⟨⟨eid, hres⟩, hdisk⟩

/-! ### Derived-category lemmas -/

theorem level_ne_academic (s : String) : "level_" ++ s ≠ "academic" := by
  intro h
  have h2 : ("level_" ++ s).data = "academic".data := by rw [h]
  obtain ⟨data⟩ := s
  simp [String.data] at h2

theorem spec_domain_class_eq_academic_iff (dm : String) :
    spec_domain_class dm = "academic" ↔
      (strContains dm ".edu" = true ∨ strContains dm ".ac." = true) := by
  unfold spec_domain_class
  cases hedu : strContains dm ".edu" <;> cases hac : strContains dm ".ac."
  · rw [if_neg (by simp)]
    split_ifs <;> simp
  · simp
  · simp
  · simp

/-- A concrete entry whose source domain is a `.mil` military domain. -/
def milEntry : Entry :=
  ⟨"e1", "T", "https://www.army.mil/x", "S", [], [], 5, "t", "t",
    "www.army.mil", "report", "unknown"⟩

/-- C2 counterexample: the claim maps a domain containing ".mil" to
"government", but the code's chain never tests ".mil": a pure `.mil`
domain falls through to "commercial". -/
theorem mil_domain_classified_commercial :
    strContains milEntry.source_domain ".mil" = true
    ∧ "government" ∉ _get_entry_categories milEntry
    ∧ _get_entry_categories milEntry = ["report", "commercial"] := by
  decide

/-- C2 (amended): every entry's derived category list carries exactly one
domain class, appended last, and that class is determined by the substring
rule ".edu"/".ac." → academic, else ".gov" → government, else ".org" →
organization, else commercial (no ".mil" test). -/
theorem derived_domain_class (e : Entry) :
    _get_entry_categories e =
      [e.content_type]
      ++ (if e.technical_level ≠ "unknown" then ["level_" ++ e.technical_level] else [])
      ++ [spec_domain_class e.source_domain]
    ∧ spec_domain_class e.source_domain
        ∈ ["academic", "government", "organization", "commercial"]
    ∧ (strContains e.source_domain ".edu" = true ∨ strContains e.source_domain ".ac." = true →
        spec_domain_class e.source_domain = "academic")
    ∧ (strContains e.source_domain ".edu" = false →
        strContains e.source_domain ".ac." = false →
        strContains e.source_domain ".gov" = true →
        spec_domain_class e.source_domain = "government")
    ∧ (strContains e.source_domain ".edu" = false →
        strContains e.source_domain ".ac." = false →
        strContains e.source_domain ".gov" = false →
        strContains e.source_domain ".org" = true →
        spec_domain_class e.source_domain = "organization")
    ∧ (strContains e.source_domain ".edu" = false →
        strContains e.source_domain ".ac." = false →
        strContains e.source_domain ".gov" = false →
        strContains e.source_domain ".org" = false →
        spec_domain_class e.source_domain = "commercial") := by
  refine ⟨rfl, ?_, ?_, ?_, ?_, ?_⟩
  · unfold spec_domain_class
    split_ifs <;> simp
  · intro h
    rcases h with h | h <;> simp [spec_domain_class, h]
  · intro h1 h2 h3
    simp [spec_domain_class, h1, h2, h3]
  · intro h1 h2 h3 h4
    simp [spec_domain_class, h1, h2, h3, h4]
  · intro h1 h2 h3 h4
    simp [spec_domain_class, h1, h2, h3, h4]

/-- C2 (amended) witness: the military domain of the counterexample entry
is classified commercial by the amended rule. -/
theorem derived_domain_class_witness :
    spec_domain_class milEntry.source_domain = "commercial" :=
  (derived_domain_class milEntry).2.2.2.2.2 (by decide) (by decide) (by decide)
    (by decide)

/-- A concrete entry whose content type is the string "academic" while its
source domain matches no academic domain rule. -/
def shopEntry : Entry :=
  ⟨"e9", "T", "https://shop.example.com/a", "S", [], [("content_type", "academic")],
    5, "t", "t", "shop.example.com", "academic", "unknown"⟩

/-- A one-entry catalog on disk holding `shopEntry`. -/
def shopDisk : DiskFile :=
  DiskFile.valid { _create_empty_catalog "t0" with entries := [("e9", shopEntry)] }

/-- C6 counterexample: exporting with filterCategory "academic" includes an
entry whose content type is "academic" although its source domain matches
no academic rule, refuting "exactly the entries whose source domain
matches the academic rule". -/
theorem academic_filter_admits_content_type :
    ("e9", shopEntry) ∈ (export_catalog shopDisk "t1" "academic").getD []
    ∧ strContains shopEntry.source_domain ".edu" = false
    ∧ strContains shopEntry.source_domain ".ac." = false := by
  decide

/-- C6 (amended): with a non-empty filterCategory, the exported set is
exactly the stored entries whose derived category set contains it,
independent of categoryIndex; membership of "academic" in the derived set
holds iff the content type is "academic" or the source domain matches the
academic domain rule. -/
theorem export_filter_by_derived_categories (d : DiskFile) (now fc : String)
    (hfc : fc ≠ "") :
    (∀ c, load_catalog d now = LoadResult.ok c →
        ∃ ex, export_catalog d now fc = some ex
          ∧ ∀ p : String × Entry,
              (p ∈ ex ↔ p ∈ c.entries ∧ fc ∈ _get_entry_categories p.2))
    ∧ (∀ e : Entry, "academic" ∈ _get_entry_categories e ↔
        (e.content_type = "academic"
          ∨ strContains e.source_domain ".edu" = true
          ∨ strContains e.source_domain ".ac." = true)) := by
  constructor
  · intro c hload
    refine ⟨c.entries.filter (fun p => fc ∈ _get_entry_categories p.2), ?_, ?_⟩
    · simp only [export_catalog, hload]
      rw [if_neg hfc]
    · intro p
      simp [List.mem_filter]
  · intro e
    have hdecomp := (derived_domain_class e).1
    rw [hdecomp]
    constructor
    · intro h
      rcases List.mem_append.mp h with h1 | h2
      · rcases List.mem_append.mp h1 with ha | hb
        · exact Or.inl (List.mem_singleton.mp ha).symm
        · exfalso
          by_cases htl : e.technical_level ≠ "unknown"
          · rw [if_pos htl] at hb
            exact level_ne_academic e.technical_level (List.mem_singleton.mp hb).symm
          · rw [if_neg htl] at hb
            simp at hb
      · exact Or.inr ((spec_domain_class_eq_academic_iff e.source_domain).mp
          (List.mem_singleton.mp h2).symm)
    · intro h
      rcases h with h | h
      · exact List.mem_append.mpr (Or.inl (List.mem_append.mpr
          (Or.inl (List.mem_singleton.mpr h.symm))))
      · exact List.mem_append.mpr (Or.inr (List.mem_singleton.mpr
          ((spec_domain_class_eq_academic_iff e.source_domain).mpr h).symm))

/-- C6 (amended) witness: the "academic" filter on the one-entry shop
catalog keeps the entry because its content type is "academic". -/
theorem export_filter_witness :
    (∃ ex, export_catalog shopDisk "t9" "academic" = some ex
      ∧ ("e9", shopEntry) ∈ ex)
    ∧ ("academic" ∈ _get_entry_categories shopEntry) := by
  have h := export_filter_by_derived_categories shopDisk "t9" "academic"
    (by decide)
  have hmem : "academic" ∈ _get_entry_categories shopEntry :=
    (h.2 shopEntry).mpr (Or.inl rfl)
  obtain ⟨ex, hex, hiff⟩ := h.1 _ rfl
  exact ⟨⟨ex, hex, (hiff ("e9", shopEntry)).mpr ⟨by decide, hmem⟩⟩, hmem⟩

/-- C10: with the empty string as metadata argument, the built entry's
metadata map is empty (not wrapped as a raw-metadata record) and its
content type and technical level default to "unknown"; on a successful
create the stored entry is exactly that record. -/
theorem empty_metadata_defaults (d : DiskFile) (title url summary tags : String)
    (q : ℚ) (env : CreateEnv) (eid : String)
    (h : (create_catalog_entry d title url summary tags "" q env).2
        = CreateResult.created eid) :
    (build_entry title url summary tags "" q env).metadata = []
    ∧ (build_entry title url summary tags "" q env).content_type = "unknown"
    ∧ (build_entry title url summary tags "" q env).technical_level = "unknown"
    ∧ ∃ c : Catalog,
        (create_catalog_entry d title url summary tags "" q env).1 = DiskFile.valid c
        ∧ c.entries.lookup eid = some (build_entry title url summary tags "" q env) := by
  refine ⟨rfl, rfl, rfl, ?_⟩
  cases hload : load_catalog d env.now with
  | raises =>
      rw [create_error_raises_eq d title url summary tags "" q env hload] at h
      simp at h
  | ok_non_catalog =>
      rw [create_error_non_catalog_eq d title url summary tags "" q env hload] at h
      simp at h
  | ok c0 =>
      cases hdup : find_dup c0.entries url with
      | some eid' =>
          rw [create_dup_eq d title url summary tags "" q env c0 eid' hload hdup] at h
          simp at h
      | none =>
          cases henv : env.save_outcome with
          | fail_before_write =>
              rw [create_fail_before_eq d title url summary tags "" q env c0
                hload hdup henv] at h
              simp at h
          | fail_during_write =>
              rw [create_fail_during_eq d title url summary tags "" q env c0
                hload hdup henv] at h
              simp at h
          | ok =>
              have heq := create_success_eq d title url summary tags "" q env c0
                hload hdup henv
              rw [heq] at h ⊢
              simp only [CreateResult.created.injEq] at h
              refine ⟨_, rfl, ?_⟩
              rw [created_catalog_entries, ← h, Assoc.lookup_insert]
              simp [build_entry]

/-- C10 witness: a concrete successful create with empty metadata stores
an entry with empty metadata and unknown content type and level. -/
theorem empty_metadata_witness :
    (build_entry "A" "u1" "S" "a" "" 5
        ⟨"t1", 0, "d1", none, SaveOutcome.ok⟩).metadata = []
    ∧ (build_entry "A" "u1" "S" "a" "" 5
        ⟨"t1", 0, "d1", none, SaveOutcome.ok⟩).content_type = "unknown"
    ∧ (build_entry "A" "u1" "S" "a" "" 5
        ⟨"t1", 0, "d1", none, SaveOutcome.ok⟩).technical_level = "unknown"
    ∧ ∃ c : Catalog,
        (create_catalog_entry DiskFile.absent "A" "u1" "S" "a" "" 5
            ⟨"t1", 0, "d1", none, SaveOutcome.ok⟩).1 = DiskFile.valid c
        ∧ c.entries.lookup "entry_t1_0"
            = some (build_entry "A" "u1" "S" "a" "" 5
                ⟨"t1", 0, "d1", none, SaveOutcome.ok⟩) :=
  empty_metadata_defaults DiskFile.absent "A" "u1" "S" "a" 5
    ⟨"t1", 0, "d1", none, SaveOutcome.ok⟩ "entry_t1_0" (by decide)

/-! ### Similarity lemmas -/

theorem similarity_eq_zero_of_empty (a b : String) (h : a = "" ∨ b = "") :
    _calculate_text_similarity a b = 0 := by
  unfold _calculate_text_similarity
  rw [if_pos h]

theorem sim_guard_redundant (a b : String) (c : ℚ) (hc : 0 ≤ c) (n : Nat) :
    (if a ≠ "" ∧ b ≠ "" ∧ _calculate_text_similarity a b > c then n else 0)
      = if _calculate_text_similarity a b > c then n else 0 := by
  by_cases ha : a = ""
  · rw [if_neg (fun hcon => hcon.1 ha),
      if_neg (by rw [similarity_eq_zero_of_empty a b (Or.inl ha)]; exact not_lt.mpr hc)]
  · by_cases hb : b = ""
    · rw [if_neg (fun hcon => hcon.2.1 hb),
        if_neg (by rw [similarity_eq_zero_of_empty a b (Or.inr hb)]; exact not_lt.mpr hc)]
    · by_cases hs : _calculate_text_similarity a b > c
      · rw [if_pos ⟨ha, hb, hs⟩, if_pos hs]
      · rw [if_neg (fun hcon => hs hcon.2.2), if_neg hs]

theorem similarity_self_eq_one (a : String) (h : words a ≠ []) :
    _calculate_text_similarity a a = 1 := by
  have ha : a ≠ "" := by
    intro he
    apply h
    rw [he]
    decide
  unfold _calculate_text_similarity
  rw [if_neg (by simp [ha])]
  rw [if_neg (by simp [h])]
  have hfilter : (words a).filter (fun w => w ∈ words a) = words a := by
    apply List.filter_eq_self.mpr
    intro x hx
    simpa using hx
  have hnodup : (words a).Nodup := by
    unfold words
    exact List.nodup_dedup _
  have hcard : ((words a ++ words a).dedup).length = (words a).length := by
    rw [← List.card_toFinset, List.toFinset_append, Finset.union_self,
      List.card_toFinset, List.dedup_eq_self.mpr hnodup]
  rw [hfilter, hcard]
  have hlen : ((words a).length : ℚ) ≠ 0 := by
    simpa using fun hz => h (List.length_eq_zero.mp hz)
  exact div_self hlen

theorem similarity_zero_of_disjoint (a b : String)
    (h : ∀ x ∈ words a, x ∉ words b) :
    _calculate_text_similarity a b = 0 := by
  unfold _calculate_text_similarity
  by_cases hab : a = "" ∨ b = ""
  · rw [if_pos hab]
  · rw [if_neg hab]
    by_cases hw : words a = [] ∨ words b = []
    · rw [if_pos hw]
    · rw [if_neg hw]
      have hfilter : (words a).filter (fun w => w ∈ words b) = [] := by
        apply List.filter_eq_nil_iff.mpr
        intro x hx
        simpa using h x hx
      rw [hfilter]
      simp

/-- An entry stored with empty title and summary. -/
def emptyTextEntry : Entry :=
  ⟨"e0", "", "u1", "", [], [], 5, "t", "t", "d", "unknown", "unknown"⟩

/-- A one-entry catalog on disk holding `emptyTextEntry`. -/
def emptyTextDisk : DiskFile :=
  DiskFile.valid { _create_empty_catalog "t0" with entries := [("e0", emptyTextEntry)] }

/-- C3 counterexample: against an entry whose stored title and summary are
empty, a query with identical (empty) title and summary and a different
URL scores 0 — not 80 — and is not flagged. -/
theorem identical_empty_texts_score_zero :
    emptyTextEntry.title = "" ∧ emptyTextEntry.summary = ""
    ∧ ("u2" : String) ≠ emptyTextEntry.url
    ∧ similarity_score emptyTextEntry "u2" "" "" = 0
    ∧ detect_duplicates emptyTextDisk "t1" "u2" "" "" = some [] := by
  decide

/-- C3 (amended): the similarity score is the sum of +100 for an exact URL
match, +50 for title Jaccard similarity above 0.8 and +30 for summary
Jaccard similarity above 0.7; a different-URL query with identical title
and summary scores exactly 80 provided each tokenizes to at least one
word; a different-URL query sharing no words scores 0; and an entry is
flagged by the duplicate detector exactly when its score reaches 60. -/
theorem similarity_scoring (e : Entry) (url title summary : String) :
    (similarity_score e url title summary =
      (if e.url = url then 100 else 0)
      + (if _calculate_text_similarity title e.title > 0.8 then 50 else 0)
      + (if _calculate_text_similarity summary e.summary > 0.7 then 30 else 0))
    ∧ (url ≠ e.url → title = e.title → summary = e.summary →
        words title ≠ [] → words summary ≠ [] →
        similarity_score e url title summary = 80)
    ∧ (url ≠ e.url → (∀ x ∈ words title, x ∉ words e.title) →
        (∀ x ∈ words summary, x ∉ words e.summary) →
        similarity_score e url title summary = 0)
    ∧ (∀ d now c eid sc, load_catalog d now = LoadResult.ok c →
        ∃ l, detect_duplicates d now url title summary = some l
          ∧ ((eid, sc) ∈ l ↔
              ∃ e2, (eid, e2) ∈ c.entries
                ∧ sc = similarity_score e2 url title summary ∧ 60 ≤ sc)) := by
  refine ⟨?_, ?_, ?_, ?_⟩
  · unfold similarity_score
    rw [sim_guard_redundant title e.title 0.8 (by norm_num) 50,
      sim_guard_redundant summary e.summary 0.7 (by norm_num) 30]
  · intro hurl ht hs hwt hws
    have htne : title ≠ "" := by
      intro he
      apply hwt
      rw [he]
      decide
    have hsne : summary ≠ "" := by
      intro he
      apply hws
      rw [he]
      decide
    unfold similarity_score
    rw [← ht, ← hs]
    rw [if_neg (fun hcon => hurl hcon.symm),
      if_pos ⟨htne, htne, by rw [similarity_self_eq_one title hwt]; norm_num⟩,
      if_pos ⟨hsne, hsne, by rw [similarity_self_eq_one summary hws]; norm_num⟩]
  · intro hurl hdt hds
    unfold similarity_score
    rw [if_neg (fun hcon => hurl hcon.symm),
      if_neg (fun hcon => absurd hcon.2.2
        (by rw [similarity_zero_of_disjoint title e.title hdt]
            exact not_lt.mpr (by norm_num))),
      if_neg (fun hcon => absurd hcon.2.2
        (by rw [similarity_zero_of_disjoint summary e.summary hds]
            exact not_lt.mpr (by norm_num)))]
  · intro d now c eid sc hload
    refine ⟨c.entries.filterMap (fun p =>
        let s := similarity_score p.2 url title summary
        if s ≥ 60 then some (p.1, s) else none), ?_, ?_⟩
    · simp only [detect_duplicates, hload]
    · rw [List.mem_filterMap]
      constructor
      · rintro ⟨⟨pid, pe⟩, hp, hf⟩
        simp only at hf
        by_cases h60 : similarity_score pe url title summary ≥ 60
        · rw [if_pos h60] at hf
          have hpair := Option.some.inj hf
          have h1 : pid = eid := congrArg Prod.fst hpair
          have h2 : similarity_score pe url title summary = sc :=
            congrArg Prod.snd hpair
          subst h1
          exact ⟨pe, hp, h2.symm, h2 ▸ h60⟩
        · rw [if_neg h60] at hf
          exact absurd hf (by simp)
      · rintro ⟨e2, hmem, hsc, h60⟩
        subst hsc
        exact ⟨(eid, e2), hmem, by simp only []; rw [if_pos h60]⟩

/-- The entry of the spec's similarity scenario. -/
def quantumEntry : Entry :=
  ⟨"eq", "Quantum Computing Advances", "u1",
    "Research on quantum computing applications", [], [], 5, "t", "t", "d",
    "unknown", "unknown"⟩

/-- A one-entry catalog on disk holding `quantumEntry`. -/
def quantumDisk : DiskFile :=
  DiskFile.valid { _create_empty_catalog "t0" with entries := [("eq", quantumEntry)] }

/-- C3 (amended) witness: identical non-empty title and summary with a
different URL score 80 and are flagged; texts sharing no words score 0. -/
theorem similarity_scoring_witness :
    similarity_score quantumEntry "u2" "Quantum Computing Advances"
      "Research on quantum computing applications" = 80
    ∧ similarity_score quantumEntry "u2" "stellar marine biology"
      "entirely unrelated words here" = 0
    ∧ ∃ l, detect_duplicates quantumDisk "t1" "u2" "Quantum Computing Advances"
        "Research on quantum computing applications" = some l
      ∧ ("eq", 80) ∈ l := by
  have h80 := (similarity_scoring quantumEntry "u2" "Quantum Computing Advances"
    "Research on quantum computing applications").2.1 (by decide) rfl rfl
    (by decide) (by decide)
  refine ⟨h80, ?_, ?_⟩
  · exact (similarity_scoring quantumEntry "u2" "stellar marine biology"
      "entirely unrelated words here").2.2.1 (by decide) (by decide) (by decide)
  · obtain ⟨l, hl, hiff⟩ := (similarity_scoring quantumEntry "u2"
      "Quantum Computing Advances"
      "Research on quantum computing applications").2.2.2 quantumDisk "t1" _ "eq" 80 rfl
    exact ⟨l, hl, hiff.mpr ⟨quantumEntry, by decide, h80.symm, by norm_num⟩⟩


/-! ### Reachable-state invariants -/

/-- The environment of the concrete runs below: one fixed timestamp and
hash bucket, successful save. -/
def envA : CreateEnv := ⟨"t1", 0, "d1", none, SaveOutcome.ok⟩

/-- A later environment whose save fails during the file write. -/
def envT : CreateEnv := ⟨"t2", 1, "d1", none, SaveOutcome.fail_during_write⟩

/-- One successful insertion from an absent catalog file. -/
def diskA : DiskFile :=
  (create_catalog_entry DiskFile.absent "A" "u1" "S" "a" "" 5 envA).1

/-- A second insertion under the same timestamp and hash bucket — hence
the same generated entry id — with a different URL and no tags. -/
def diskB : DiskFile :=
  (create_catalog_entry diskA "B" "u2" "S" "" "" 5 envA).1

/-- After `diskA`, a second create whose save fails during the file
write, truncating the catalog file. -/
def diskC : DiskFile :=
  (create_catalog_entry diskA "B" "u2" "S" "b" "" 5 envT).1

/-- C9 counterexample: one successful insertion followed by a create whose
save fails during the file write reaches a corrupted catalog file — a
state produced by the core's own operations — which loads as the empty
catalog with bucket sum 0, although one entry was inserted with a quality
score. -/
theorem bucket_sum_broken_by_truncated_save :
    Reach diskC 1
    ∧ load_catalog diskC "t9" = LoadResult.ok (_create_empty_catalog "t9")
    ∧ sum_values (_create_empty_catalog "t9").statistics.quality_distribution = 0 := by
  refine ⟨?_, rfl, rfl⟩
  exact Reach.step diskA 1 "B" "u2" "S" "b" "" 5 envT
    (Reach.step DiskFile.absent 0 "A" "u1" "S" "a" "" 5 envA Reach.init)

/-- C9 (amended): in every state reachable when each failed save aborts
before the file write (no truncation), the quality-bucket counters of the
loaded catalog sum to the number of successful insertions performed
(every inserted entry carries a quality score, the parameter defaulting
to 5.0); a save failing during the write instead truncates the file, and
the corrupted catalog reloads as empty. -/
theorem bucket_sum_counts_insertions (d : DiskFile) (n : Nat)
    (h : ReachAtomicSave d n) :
    ∀ now c, load_catalog d now = LoadResult.ok c →
      sum_values c.statistics.quality_distribution = n := by
  induction h with
  | init =>
      intro now c hc
      obtain rfl := LoadResult.ok.inj hc
      rfl
  | step d n title url summary tags metadata q env hr hsave ih =>
      intro now c hc
      cases hload : load_catalog d env.now with
      | raises =>
          rw [create_error_raises_eq d title url summary tags metadata q env hload]
            at hc ⊢
          simpa [CreateResult.isCreated] using ih now c hc
      | ok_non_catalog =>
          rw [create_error_non_catalog_eq d title url summary tags metadata q env hload]
            at hc ⊢
          simpa [CreateResult.isCreated] using ih now c hc
      | ok c0 =>
          cases hdup : find_dup c0.entries url with
          | some eid =>
              rw [create_dup_eq d title url summary tags metadata q env c0 eid
                hload hdup] at hc ⊢
              simpa [CreateResult.isCreated] using ih now c hc
          | none =>
              cases henv : env.save_outcome with
              | fail_before_write =>
                  rw [create_fail_before_eq d title url summary tags metadata q env c0
                    hload hdup henv] at hc ⊢
                  simpa [CreateResult.isCreated] using ih now c hc
              | fail_during_write => exact absurd henv hsave
              | ok =>
                  rw [create_success_eq d title url summary tags metadata q env c0
                    hload hdup henv] at hc ⊢
                  obtain rfl := LoadResult.ok.inj hc
                  rw [created_catalog_stats, sum_values_bump, ih env.now c0 hload]
                  simp [CreateResult.isCreated]

/-- C9 (amended) witness: after one successful insertion the loaded
buckets sum to one. -/
theorem bucket_sum_witness :
    ∃ c, load_catalog diskA "t9" = LoadResult.ok c
      ∧ sum_values c.statistics.quality_distribution = 1 := by
  have h1 : ReachAtomicSave diskA 1 :=
    ReachAtomicSave.step DiskFile.absent 0 "A" "u1" "S" "a" "" 5 envA
      ReachAtomicSave.init (by decide)
  exact ⟨_, rfl, bucket_sum_counts_insertions diskA 1 h1 "t9" _ rfl⟩

theorem TagConsistent_empty (now : String) :
    TagConsistent (_create_empty_catalog now) := by
  constructor
  · intro eid e hlk
    exact Option.noConfusion hlk
  · intro t id hid
    exact absurd hid (List.not_mem_nil id)

/-- One insertion step preserves both directions of tag-index consistency
when the generated id is fresh. -/
theorem TagConsistent_step (entries : Assoc Entry) (tagIdx : Assoc (List String))
    (e : Entry)
    (h1 : ∀ eid e0, entries.lookup eid = some e0 →
        ∀ t ∈ e0.tags, e0.id ∈ (tagIdx.lookup t).getD [])
    (h2 : ∀ t id, id ∈ (tagIdx.lookup t).getD [] →
        ∃ e0, entries.lookup id = some e0 ∧ t ∈ e0.tags)
    (hfresh : entries.lookup e.id = none) :
    (∀ eid e0, (entries.insert e.id e).lookup eid = some e0 → ∀ t ∈ e0.tags,
        e0.id ∈ ((update_tag_index tagIdx e.tags e.id).lookup t).getD [])
    ∧ (∀ t id, id ∈ ((update_tag_index tagIdx e.tags e.id).lookup t).getD [] →
        ∃ e0, (entries.insert e.id e).lookup id = some e0 ∧ t ∈ e0.tags) := by
  constructor
  · intro eid e0 hlk t ht
    rw [Assoc.lookup_insert] at hlk
    by_cases heid : eid = e.id
    · rw [if_pos heid] at hlk
      obtain rfl := Option.some.inj hlk
      rw [mem_update_tag_index]
      exact Or.inr ⟨rfl, ht⟩
    · rw [if_neg heid] at hlk
      rw [mem_update_tag_index]
      exact Or.inl (h1 eid e0 hlk t ht)
  · intro t id hid
    rw [mem_update_tag_index] at hid
    rcases hid with hid | ⟨rfl, ht⟩
    · obtain ⟨e0, hlk, hte⟩ := h2 t id hid
      refine ⟨e0, ?_, hte⟩
      rw [Assoc.lookup_insert, if_neg ?_]
      · exact hlk
      · intro hide
        rw [hide, hfresh] at hlk
        exact Option.noConfusion hlk
    · refine ⟨e, ?_, ht⟩
      rw [Assoc.lookup_insert, if_pos rfl]

/-- The catalog document persisted in `diskB`. -/
def catalogB : Catalog :=
  match load_catalog diskB "t9" with
  | .ok c => c
  | _ => _create_empty_catalog "t9"

/-- C5 counterexample: two insertions under the same generated entry id
(same timestamp second and hash bucket, different URLs) yield a reachable
state whose tag index lists an id under tag "a" while the entry now
stored at that id carries no tags — the reverse direction of the
invariant fails. -/
theorem tag_index_inconsistent_after_collision :
    (∃ n, Reach diskB n)
    ∧ load_catalog diskB "t9" = LoadResult.ok catalogB
    ∧ ¬ TagConsistent catalogB := by
  refine ⟨?_, rfl, ?_⟩
  · exact ⟨_, Reach.step diskA _ "B" "u2" "S" "" "" 5 envA
      (Reach.step DiskFile.absent 0 "A" "u1" "S" "a" "" 5 envA Reach.init)⟩
  · intro hcon
    obtain ⟨_, h2⟩ := hcon
    obtain ⟨e, he, hte⟩ := h2 "a" "entry_t1_0" (by decide)
    have hlook : catalogB.entries.lookup "entry_t1_0"
        = some ⟨"entry_t1_0", "B", "u2", "S", [], [], 5, "t1", "t1", "d1",
            "unknown", "unknown"⟩ := by decide
    have he' := Option.some.inj (hlook.symm.trans he)
    rw [← he'] at hte
    simp at hte

/-- C5 (amended): in every state reachable from the empty catalog through
creations whose generated entry id is fresh (ruling out the timestamp
plus hash-bucket id collision), the loaded catalog's tag index is
consistent in both directions: every entry's id is listed under each of
its tags, and every listed id belongs to an entry carrying that tag. -/
theorem tag_index_consistent (d : DiskFile) (h : ReachFresh d) :
    ∀ now, ∃ c, load_catalog d now = LoadResult.ok c ∧ TagConsistent c := by
  induction h with
  | init =>
      intro now
      exact ⟨_, rfl, TagConsistent_empty now⟩
  | step d title url summary tags metadata q env hr hfresh ih =>
      intro now
      cases hload : load_catalog d env.now with
      | raises =>
          rw [create_error_raises_eq d title url summary tags metadata q env hload]
          exact ih now
      | ok_non_catalog =>
          rw [create_error_non_catalog_eq d title url summary tags metadata q env hload]
          exact ih now
      | ok c0 =>
          cases hdup : find_dup c0.entries url with
          | some eid =>
              rw [create_dup_eq d title url summary tags metadata q env c0 eid
                hload hdup]
              exact ih now
          | none =>
              cases henv : env.save_outcome with
              | fail_before_write =>
                  rw [create_fail_before_eq d title url summary tags metadata q env c0
                    hload hdup henv]
                  exact ih now
              | fail_during_write =>
                  rw [create_fail_during_eq d title url summary tags metadata q env c0
                    hload hdup henv]
                  exact ⟨_, rfl, TagConsistent_empty now⟩
              | ok =>
                  rw [create_success_eq d title url summary tags metadata q env c0
                    hload hdup henv]
                  obtain ⟨c1, hc1, hcons⟩ := ih env.now
                  rw [hload] at hc1
                  obtain rfl := LoadResult.ok.inj hc1
                  obtain ⟨hcons1, hcons2⟩ := hcons
                  have hfresh2 : c0.entries.lookup (make_entry_id env) = none := by
                    simpa [loaded_entries, hload] using hfresh
                  have hstep := TagConsistent_step c0.entries c0.tags
                    (build_entry title url summary tags metadata q env)
                    hcons1 hcons2 hfresh2
                  refine ⟨_, rfl, ?_, ?_⟩
                  · intro eid e0 hlk t ht
                    rw [created_catalog_tags]
                    rw [created_catalog_entries] at hlk
                    exact hstep.1 eid e0 hlk t ht
                  · intro t id hid
                    rw [created_catalog_entries]
                    rw [created_catalog_tags] at hid
                    exact hstep.2 t id hid

/-- C5 (amended) witness: the one-entry catalog reached with a fresh id
loads successfully and is tag-consistent. -/
theorem tag_index_consistent_witness :
    ∃ c, load_catalog diskA "t9" = LoadResult.ok c ∧ TagConsistent c := by
  have h : ReachFresh diskA :=
    ReachFresh.step DiskFile.absent "A" "u1" "S" "a" "" 5 envA ReachFresh.init
      (by decide)
  exact tag_index_consistent diskA h "t9"
